import Mathlib

/-!
# Verification of the Facebook CDN URL refresh engine

A shallow embedding of `src/urlUpdater.js` (the refresh engine of the
`facebook-cdn-updater` repository) together with theorems settling the
frozen claims about it.

External effects (HTTP probes, the Facebook Graph API, Supabase reads and
writes, timestamps) are modelled by an explicit environment of oracles
(`Env`), and the mutable module state (`stats`, the Supabase tables) is
threaded explicitly through every function.  Each Lean definition mirrors
one JavaScript function of the source and keeps its name.
-/

namespace CdnUpdater

/-- `MAX_API_CALLS = 190` in `urlUpdater.js`. -/
def MAX_API_CALLS : Nat := 190

/-- One entry of a failure bucket: `{ id: ..., title: ... }` as pushed into
`stats.failures.*`.  The queue path stores a plain string title
(`item.video_title || 'Unknown'`), the sweep path stores the possibly-null
`video.title`, hence the `Option`. -/
structure Failure where
  id : String
  title : Option String
deriving Repr, DecidableEq

/-- The module-global `stats` object of `urlUpdater.js`.  `startTime` only
feeds the duration line of the report and is not modelled. -/
structure Stats where
  totalChecked : Nat
  alreadyValid : Nat
  updated : Nat
  failed : Nat
  queued : Nat
  apiCallsUsed : Nat
  episodesUpdated : Nat
  moviesUpdated : Nat
  notFound : List Failure
  permissionDenied : List Failure
  apiError : List Failure
deriving Repr, DecidableEq

/-- The fresh `stats` object assigned at the start of `processUrlUpdates`. -/
def initStats : Stats :=
  { totalChecked := 0, alreadyValid := 0, updated := 0, failed := 0,
    queued := 0, apiCallsUsed := 0, episodesUpdated := 0, moviesUpdated := 0,
    notFound := [], permissionDenied := [], apiError := [] }

/-- A row of the `url_update_queue` table (see the repository README's
`CREATE TABLE`).  `created_at` is a monotone timestamp (`DEFAULT NOW()`). -/
structure QueueTask where
  id : Nat
  table_name : String
  row_id : Nat
  facebook_video_id : String
  old_url : Option String
  video_title : Option String
  status : String
  error_message : Option String
  created_at : Nat
  processed_at : Option Nat
deriving Repr, DecidableEq

/-- A row of the `episodes` or `movies` table as selected by
`processFreshVideos`: `id, title, <videoUrlColumn>, <videoIdColumn>`.
The two tables use different column names (`video_url`/`facebook_video_id`
vs `videoUrl`/`facebookVideoId`) for the same semantic fields, so a single
record shape suffices. -/
structure TrackRecord where
  id : Nat
  title : Option String
  videoUrl : Option String
  videoId : Option String
deriving Repr, DecidableEq

/-- The Supabase state visible to the engine: the two tracked tables and the
`url_update_queue` table.  `nextQueueId` models the `BIGSERIAL` id counter;
it also serves as the monotone `created_at` stamp of an inserted row. -/
structure Db where
  episodes : List TrackRecord
  movies : List TrackRecord
  queue : List QueueTask
  nextQueueId : Nat
deriving Repr, DecidableEq

/-- The outcome of the single `axios.get` to the Graph API inside
`getFacebookVideoUrl`:
* `ok source` — the request resolved; `source` is `response.data.source`
  (`none` when `response.data` or `response.data.source` is absent);
* `apiErr code message` — the request threw with a structured provider
  error (`error.response.data.error` present), carrying its optional
  numeric `code` and optional `message`;
* `netErr message` — the request threw with no structured response. -/
inductive FbOutcome where
  | ok (source : Option String)
  | apiErr (code : Option Nat) (message : Option String)
  | netErr (message : String)
deriving Repr, DecidableEq

/-- The value returned by `getFacebookVideoUrl`:
`{success:true, url}` or `{success:false, error, message}`. -/
inductive FbResult where
  | success (url : String)
  | failure (kind : String) (message : String)
deriving Repr, DecidableEq

/-- The environment of external effects for one run:
* `net url` — whether the `axios.head` probe of `url` returns status 200
  (every transport error or non-200 status collapses to `false`);
* `fb videoId` — the Graph-API outcome for `videoId`;
* `dbWriteOk table rowId` — whether the Supabase `update` of that row
  succeeds;
* `enqueueOk table rowId` — whether the Supabase `insert` into
  `url_update_queue` for that row succeeds;
* `now` — the wall-clock stamp used for `processed_at`. -/
structure Env where
  net : String → Bool
  fb : String → FbOutcome
  dbWriteOk : String → Nat → Bool
  enqueueOk : String → Nat → Bool
  now : Nat

/-- Whether `pat` is a prefix of the second character list. -/
def listIsPrefix : List Char → List Char → Bool
  | [], _ => true
  | _ :: _, [] => false
  | p :: ps, c :: cs => p == c && listIsPrefix ps cs

/-- Whether `pat` occurs contiguously in the second character list. -/
def listContains (pat : List Char) : List Char → Bool
  | [] => pat.isEmpty
  | c :: cs => listIsPrefix pat (c :: cs) || listContains pat cs

/-- JavaScript `haystack.includes(needle)` for strings: `true` iff `needle`
occurs as a contiguous substring (always `true` for the empty needle). -/
def strIncludes (s pat : String) : Bool := listContains pat.data s.data

/-- JavaScript `s.toLowerCase()` restricted to ASCII letters, which covers
the provider messages the classifier matches on. -/
def strToLower (s : String) : String := ⟨s.data.map Char.toLower⟩

/-- `isUrlValid(url)`: a falsy (`null`/empty), `'NULL'`-sentinel URL is
invalid with no network traffic; otherwise one `HEAD` probe decides.  The
second component counts the network requests issued by the call. -/
def isUrlValid (net : String → Bool) (url : Option String) : Bool × Nat :=
  match url with
  | none => (false, 0)
  | some u => if u = "" ∨ u = "NULL" then (false, 0) else (net u, 1)

/-- `getFacebookVideoUrl(videoId)`: one Graph-API call, incrementing
`stats.apiCallsUsed` on every path, returning the fresh source URL on
success and a classified failure otherwise (classification by structured
error code first, then case-insensitive substring match on the message). -/
def getFacebookVideoUrl (o : FbOutcome) (s : Stats) : FbResult × Stats :=
  match o with
  | FbOutcome.ok source =>
      let s := { s with apiCallsUsed := s.apiCallsUsed + 1 }
      match source with
      | some url => (FbResult.success url, s)
      | none => (FbResult.failure "no_source" "No source URL found", s)
  | FbOutcome.apiErr code message =>
      let s := { s with apiCallsUsed := s.apiCallsUsed + 1 }
      let msg := message.getD ""
      if code = some 100 ∨ strIncludes (strToLower msg) "does not exist" then
        (FbResult.failure "not_found" "Video not found", s)
      else if code = some 200 ∨ code = some 10 ∨ strIncludes (strToLower msg) "permission" then
        (FbResult.failure "permission_denied" "No permission", s)
      else if code = some 4 ∨ code = some 17 ∨ strIncludes (strToLower msg) "rate limit" then
        (FbResult.failure "rate_limit" "Rate limit reached", s)
      else
        (FbResult.failure "api_error" ("API error: " ++ msg), s)
  | FbOutcome.netErr message =>
      let s := { s with apiCallsUsed := s.apiCallsUsed + 1 }
      (FbResult.failure "network_error" message, s)

/-- `addToQueue(tableName, rowId, videoId, oldUrl, title)`: inserts a
`pending` row into `url_update_queue`; returns `false` (non-fatal) when the
insert fails. -/
def addToQueue (env : Env) (tableName : String) (rowId : Nat) (videoId : String)
    (oldUrl : Option String) (title : Option String) (db : Db) : Bool × Db :=
  if env.enqueueOk tableName rowId then
    (true,
     { db with
        queue := db.queue ++
          [{ id := db.nextQueueId, table_name := tableName, row_id := rowId,
             facebook_video_id := videoId, old_url := oldUrl, video_title := title,
             status := "pending", error_message := none,
             created_at := db.nextQueueId, processed_at := none }],
        nextQueueId := db.nextQueueId + 1 })
  else (false, db)

/-- `markQueueProcessed(queueId, status, errorMsg)`: unconditionally writes
`status`, `processed_at` and `error_message` on every queue row whose `id`
matches, with no guard on the row's previous status. -/
def markQueueProcessed (queue : List QueueTask) (queueId : Nat) (status : String)
    (errorMsg : Option String) (now : Nat) : List QueueTask :=
  queue.map fun t =>
    if t.id = queueId then
      { t with status := status, processed_at := some now, error_message := errorMsg }
    else t

/-- The single-row `update` performed by `updateVideoUrl` on a tracked
table. -/
def setVideoUrl (rows : List TrackRecord) (rowId : Nat) (newUrl : String) :
    List TrackRecord :=
  rows.map fun r => if r.id = rowId then { r with videoUrl := some newUrl } else r

/-- `updateVideoUrl(tableName, rowId, newUrl)`: maps the table name to its
URL column (`episodes → video_url`, `movies → videoUrl`, anything else
fails before touching the store), performs the write, and on success bumps
the per-table counter in `stats`. -/
def updateVideoUrl (env : Env) (tableName : String) (rowId : Nat) (newUrl : String)
    (db : Db) (s : Stats) : Bool × Db × Stats :=
  if tableName = "episodes" then
    if env.dbWriteOk tableName rowId then
      (true, { db with episodes := setVideoUrl db.episodes rowId newUrl },
       { s with episodesUpdated := s.episodesUpdated + 1 })
    else (false, db, s)
  else if tableName = "movies" then
    if env.dbWriteOk tableName rowId then
      (true, { db with movies := setVideoUrl db.movies rowId newUrl },
       { s with moviesUpdated := s.moviesUpdated + 1 })
    else (false, db, s)
  else (false, db, s)

/-- The `stats.failures.*.push(failureInfo)` dispatch shared by the drain
and sweep loops: `not_found` and `permission_denied` have their own
buckets, every other kind lands in `apiError`. -/
def pushFailure (kind : String) (fi : Failure) (s : Stats) : Stats :=
  if kind = "not_found" then { s with notFound := s.notFound ++ [fi] }
  else if kind = "permission_denied" then
    { s with permissionDenied := s.permissionDenied ++ [fi] }
  else { s with apiError := s.apiError ++ [fi] }

/-- The Supabase read at the head of `processQueue`:
`eq('status','pending')`, `order('created_at', ascending)`,
`limit(limit)`. -/
def drainQueue (queue : List QueueTask) (limit : Nat) : List QueueTask :=
  ((queue.filter fun t => t.status == "pending").mergeSort
    fun a b => a.created_at ≤ b.created_at).take limit

/-- The body of the `processQueue` loop for one drained item: resolve,
then on success apply the update and mark `completed` (or mark `failed`
with `'Database update failed'` when the apply fails); on resolver failure
mark `failed` with the resolver's message and bucket the failure. -/
def processQueueItem (env : Env) (item : QueueTask) : Db × Stats → Db × Stats
  | (db, s) =>
    let rs := getFacebookVideoUrl (env.fb item.facebook_video_id) s
    match rs with
    | (FbResult.success url, s) =>
        let uds := updateVideoUrl env item.table_name item.row_id url db s
        match uds with
        | (true, db, s) =>
            ({ db with queue := markQueueProcessed db.queue item.id "completed" none env.now },
             { s with updated := s.updated + 1 })
        | (false, db, s) =>
            let q := markQueueProcessed db.queue item.id "failed" (some "Database update failed") env.now
            ({ db with queue := q }, { s with failed := s.failed + 1 })
    | (FbResult.failure kind msg, s) =>
        let fi : Failure :=
          { id := item.facebook_video_id, title := some (item.video_title.getD "Unknown") }
        ({ db with queue := markQueueProcessed db.queue item.id "failed" (some msg) env.now },
         pushFailure kind fi { s with failed := s.failed + 1 })

/-- The `for (const item of queueItems)` loop of `processQueue`, with its
`break` when `stats.apiCallsUsed >= MAX_API_CALLS`. -/
def processQueueItems (env : Env) : List QueueTask → Db × Stats → Db × Stats
  | [], st => st
  | item :: rest, (db, s) =>
      if s.apiCallsUsed ≥ MAX_API_CALLS then (db, s)
      else processQueueItems env rest (processQueueItem env item (db, s))

/-- `processQueue()`: drain up to `MAX_API_CALLS` pending tasks in
creation order and process them under the budget. -/
def processQueue (env : Env) (st : Db × Stats) : Db × Stats :=
  processQueueItems env (drainQueue st.1.queue MAX_API_CALLS) st

/-- The eligibility filter of the sweep's listing: non-null URL column,
non-null video-id column, and URL column not equal to the `'NULL'`
sentinel. -/
def eligible (r : TrackRecord) : Bool :=
  r.videoUrl.isSome && r.videoId.isSome && r.videoUrl != some "NULL"

/-- The budget-exhausted branch of the sweep loop: enqueue every remaining
record of the current table, bumping `stats.queued` per successful
insert. -/
def enqueueRest (env : Env) (tname : String) : List TrackRecord → Db × Stats → Db × Stats
  | [], st => st
  | v :: rest, (db, s) =>
      let ad := addToQueue env tname v.id (v.videoId.getD "") v.videoUrl v.title db
      let s := if ad.1 then { s with queued := s.queued + 1 } else s
      enqueueRest env tname rest (ad.2, s)

/-- The body of the sweep loop for one in-budget record: count it, probe
its URL; a valid record only bumps `alreadyValid`; an invalid one is
resolved and, on success, applied (a failing apply only bumps `failed`);
a resolver failure bumps `failed` and lands in a failure bucket. -/
def processFreshVideo (env : Env) (tname : String) (v : TrackRecord) :
    Db × Stats → Db × Stats
  | (db, s) =>
    let s := { s with totalChecked := s.totalChecked + 1 }
    if (isUrlValid env.net v.videoUrl).1 then
      (db, { s with alreadyValid := s.alreadyValid + 1 })
    else
      let rs := getFacebookVideoUrl (env.fb (v.videoId.getD "")) s
      match rs with
      | (FbResult.success url, s) =>
          let uds := updateVideoUrl env tname v.id url db s
          match uds with
          | (true, db, s) => (db, { s with updated := s.updated + 1 })
          | (false, db, s) => (db, { s with failed := s.failed + 1 })
      | (FbResult.failure kind _, s) =>
          let fi : Failure := { id := v.videoId.getD "", title := v.title }
          (db, pushFailure kind fi { s with failed := s.failed + 1 })

/-- The `for (let i = 0; ...)` loop of `processFreshVideos` over one
table's listing: when the budget is exhausted at the head of an iteration,
this record and every remaining one are enqueued and the table's loop
stops; otherwise the record is processed in-budget. -/
def sweepTable (env : Env) (tname : String) : List TrackRecord → Db × Stats → Db × Stats
  | [], st => st
  | v :: rest, (db, s) =>
      if s.apiCallsUsed ≥ MAX_API_CALLS then
        enqueueRest env tname (v :: rest) (db, s)
      else
        sweepTable env tname rest (processFreshVideo env tname v (db, s))

/-- `processFreshVideos()`: sweep the `episodes` listing, then the
`movies` listing, in that fixed order, each with its own eligibility
filter. -/
def processFreshVideos (env : Env) (st : Db × Stats) : Db × Stats :=
  let st1 := sweepTable env "episodes" (st.1.episodes.filter eligible) st
  sweepTable env "movies" (st1.1.movies.filter eligible) st1

/-- The closing status line of `generateReport` (its final `if`/`else if`
chain): all-updated beats all-still-valid beats the queued note; when none
applies nothing is appended (the empty string here). -/
def generateReportClosing (s : Stats) : String :=
  if s.queued = 0 ∧ s.failed = 0 ∧ 0 < s.updated then
    "✅ <b>All expired URLs updated successfully!</b>"
  else if s.queued = 0 ∧ s.totalChecked = s.alreadyValid then
    "✅ <b>All URLs are still valid. No updates needed.</b>"
  else if 0 < s.queued then
    "💡 <b>Note:</b> " ++ toString s.queued ++ " items queued for next 24-hour run."
  else ""

/-- `processUrlUpdates()`: reset `stats`, drain the queue, and sweep the
fresh listings only when budget remains. -/
def processUrlUpdates (env : Env) (db : Db) : Db × Stats :=
  let st := processQueue env (db, initStats)
  if st.2.apiCallsUsed < MAX_API_CALLS then processFreshVideos env st else st

/-- `testFacebookVideo(videoId)`: the single-item diagnostic is a bare
call to `getFacebookVideoUrl` on the shared `stats`; it touches no
database state. -/
def testFacebookVideo (o : FbOutcome) (s : Stats) : FbResult × Stats :=
  getFacebookVideoUrl o s

/-! ## Concrete states used by witnesses and counterexamples -/

/-- A concrete queue row already in the terminal state `completed`, with
its processing stamped at time 5, used to exhibit the behaviour of
`markQueueProcessed` on already-terminal tasks. -/
def taskA : QueueTask :=
  { id := 1, table_name := "episodes", row_id := 7, facebook_video_id := "fb1",
    old_url := some "http://cdn/old", video_title := some "Ep 1",
    status := "completed", error_message := none, created_at := 3,
    processed_at := some 5 }

/-- A concrete `pending` queue row. -/
def taskP : QueueTask :=
  { id := 1, table_name := "episodes", row_id := 7, facebook_video_id := "fb1",
    old_url := some "http://cdn/old", video_title := some "Ep 1",
    status := "pending", error_message := none, created_at := 3,
    processed_at := none }

/-- A concrete eligible episode row with a non-sentinel URL. -/
def recB : TrackRecord :=
  { id := 7, title := some "Ep 1", videoUrl := some "http://cdn/old",
    videoId := some "fb1" }

/-- An environment where every probe reports the URL dead, the provider
always resolves a fresh URL, every tracked-table write fails, and every
queue insert succeeds. -/
def envWF : Env :=
  { net := fun _ => false, fb := fun _ => FbOutcome.ok (some "http://cdn/new"),
    dbWriteOk := fun _ _ => false, enqueueOk := fun _ _ => true, now := 42 }

/-- A concrete database holding one episode and one pending queue row. -/
def dbQ : Db :=
  { episodes := [recB], movies := [], queue := [taskP], nextQueueId := 2 }

/-- A second concrete eligible episode row. -/
def recC : TrackRecord :=
  { id := 8, title := some "Ep 2", videoUrl := some "http://cdn/old2",
    videoId := some "fb2" }

/-- Run statistics of a run that has already spent 189 of its 190 budget
units, leaving exactly one remaining call. -/
def stats189 : Stats := { initStats with apiCallsUsed := 189 }

/-- A concrete database with two eligible episodes and an empty queue. -/
def dbTwo : Db :=
  { episodes := [recB, recC], movies := [], queue := [], nextQueueId := 1 }

/-- An environment where every probe reports the URL alive. -/
def envOK : Env :=
  { net := fun _ => true, fb := fun _ => FbOutcome.ok (some "http://cdn/new"),
    dbWriteOk := fun _ _ => true, enqueueOk := fun _ _ => true, now := 9 }

/-! ## Helper lemmas -/

/-- The resolver's whole effect on the run statistics: exactly one unit of
the API budget, nothing else. -/
theorem getFacebookVideoUrl_stats (o : FbOutcome) (s : Stats) :
    (getFacebookVideoUrl o s).2 = { s with apiCallsUsed := s.apiCallsUsed + 1 } := by
  rcases o with source | ⟨code, message⟩ | msg
  · rcases source with _ | url <;> rfl
  · simp only [getFacebookVideoUrl]
    split
    · rfl
    · split
      · rfl
      · split <;> rfl
  · rfl

/-- A repeated `markQueueProcessed` write to the same id is absorbed by the
last write. -/
theorem markQueueProcessed_absorb (q : List QueueTask) (i : Nat) (st : String)
    (em : Option String) (n1 n2 : Nat) :
    markQueueProcessed (markQueueProcessed q i st em n1) i st em n2 =
      markQueueProcessed q i st em n2 := by
  simp only [markQueueProcessed, List.map_map]
  apply List.map_congr_left
  intro t _
  by_cases h : t.id = i <;> simp [Function.comp, h]

/-- Tasks whose id does not match survive `markQueueProcessed` unchanged. -/
theorem markQueueProcessed_mem_other (q : List QueueTask) (i : Nat) (st : String)
    (em : Option String) (n : Nat) :
    ∀ t ∈ q, t.id ≠ i → t ∈ markQueueProcessed q i st em n := by
  intro t ht h
  have := List.mem_map_of_mem
    (fun t : QueueTask =>
      if t.id = i then
        { t with status := st, processed_at := some n, error_message := em }
      else t) ht
  simpa [markQueueProcessed, h] using this

/-- The rewritten version of a matching task is in the updated queue. -/
theorem markQueueProcessed_mem_match (q : List QueueTask) (i : Nat) (st : String)
    (em : Option String) (n : Nat) :
    ∀ t ∈ q, t.id = i →
      { t with status := st, processed_at := some n, error_message := em } ∈
        markQueueProcessed q i st em n := by
  intro t ht h
  have := List.mem_map_of_mem
    (fun t : QueueTask =>
      if t.id = i then
        { t with status := st, processed_at := some n, error_message := em }
      else t) ht
  simpa [markQueueProcessed, h] using this

/-- After `markQueueProcessed`, every task with the target id carries the
written status, stamp and error message. -/
theorem markQueueProcessed_mem_id (q : List QueueTask) (i : Nat) (st : String)
    (em : Option String) (n : Nat) :
    ∀ t ∈ markQueueProcessed q i st em n, t.id = i →
      t.status = st ∧ t.processed_at = some n ∧ t.error_message = em := by
  intro t ht h
  simp only [markQueueProcessed] at ht
  obtain ⟨t0, ht0, rfl⟩ := List.mem_map.mp ht
  by_cases h0 : t0.id = i
  · simp [h0]
  · simp only [if_neg h0] at h ⊢
    exact absurd h h0

/-- When the underlying write is refused, `updateVideoUrl` fails and leaves
both the database and the statistics untouched. -/
theorem updateVideoUrl_write_fails (env : Env) (tn : String) (rowId : Nat)
    (newUrl : String) (db : Db) (s : Stats)
    (hW : env.dbWriteOk tn rowId = false) :
    updateVideoUrl env tn rowId newUrl db s = (false, db, s) := by
  unfold updateVideoUrl
  by_cases h1 : tn = "episodes"
  · simp [h1, h1 ▸ hW]
  · by_cases h2 : tn = "movies"
    · simp [h1, h2, h2 ▸ hW]
    · simp [h1, h2]

/-- `updateVideoUrl` never touches the queue, the API counter or the
queued counter, and touches the `movies` table only when asked to. -/
theorem updateVideoUrl_effects (env : Env) (tn : String) (rowId : Nat)
    (newUrl : String) (db : Db) (s : Stats) :
    (updateVideoUrl env tn rowId newUrl db s).2.1.queue = db.queue ∧
    (updateVideoUrl env tn rowId newUrl db s).2.2.apiCallsUsed = s.apiCallsUsed ∧
    (updateVideoUrl env tn rowId newUrl db s).2.2.queued = s.queued ∧
    (tn ≠ "movies" →
      (updateVideoUrl env tn rowId newUrl db s).2.1.movies = db.movies) := by
  unfold updateVideoUrl
  by_cases h1 : tn = "episodes"
  · subst h1
    by_cases h2 : env.dbWriteOk "episodes" rowId <;> simp [h2]
  · by_cases h2 : tn = "movies"
    · subst h2
      by_cases h3 : env.dbWriteOk "movies" rowId <;> simp [h1, h3]
    · simp [h1, h2]

/-- Bucketing a failure changes no counter. -/
theorem pushFailure_counters (kind : String) (fi : Failure) (s : Stats) :
    (pushFailure kind fi s).updated = s.updated ∧
    (pushFailure kind fi s).failed = s.failed ∧
    (pushFailure kind fi s).queued = s.queued ∧
    (pushFailure kind fi s).apiCallsUsed = s.apiCallsUsed := by
  unfold pushFailure
  by_cases h1 : kind = "not_found"
  · simp [h1]
  · by_cases h2 : kind = "permission_denied" <;> simp [h1, h2]

/-- Effect summary of the sweep body on a record whose URL probes invalid:
exactly one resolver call, and neither the queue nor the queued counter is
touched (the `movies` table only when sweeping it). -/
theorem processFreshVideo_effects (env : Env) (tname : String) (v : TrackRecord)
    (db : Db) (s : Stats) (hInv : (isUrlValid env.net v.videoUrl).1 = false) :
    (processFreshVideo env tname v (db, s)).2.apiCallsUsed = s.apiCallsUsed + 1 ∧
    (processFreshVideo env tname v (db, s)).2.queued = s.queued ∧
    (processFreshVideo env tname v (db, s)).1.queue = db.queue ∧
    (tname ≠ "movies" →
      (processFreshVideo env tname v (db, s)).1.movies = db.movies) := by
  have hs2 := getFacebookVideoUrl_stats (env.fb (v.videoId.getD ""))
    { s with totalChecked := s.totalChecked + 1 }
  simp only [processFreshVideo, hInv, Bool.false_eq_true, if_false]
  rcases hr : getFacebookVideoUrl (env.fb (v.videoId.getD ""))
      { s with totalChecked := s.totalChecked + 1 } with ⟨r, s2⟩
  rw [hr] at hs2
  rcases r with url | ⟨kind, m⟩
  · rcases hu : updateVideoUrl env tname v.id url db s2 with ⟨b, db3, s3⟩
    have hue := updateVideoUrl_effects env tname v.id url db s2
    rw [hu] at hue
    rcases b <;>
      simp_all
  · have hp := pushFailure_counters kind
      { id := v.videoId.getD "", title := v.title } { s2 with failed := s2.failed + 1 }
    simp_all

/-- Effect summary of the sweep body on a record whose URL probes valid:
only the checked and already-valid counters move. -/
theorem processFreshVideo_valid (env : Env) (tname : String) (v : TrackRecord)
    (db : Db) (s : Stats) (hVal : (isUrlValid env.net v.videoUrl).1 = true) :
    processFreshVideo env tname v (db, s) =
      (db, { s with totalChecked := s.totalChecked + 1,
                    alreadyValid := s.alreadyValid + 1 }) := by
  simp [processFreshVideo, hVal]

/-- With a never-failing queue insert, enqueueing a listing tail appends
one `pending` task per record and bumps the queued counter accordingly,
leaving the rest of the state alone. -/
theorem enqueueRest_spec (env : Env) (tname : String)
    (hEnq : ∀ t r, env.enqueueOk t r = true) :
    ∀ (vids : List TrackRecord) (db : Db) (s : Stats),
      (enqueueRest env tname vids (db, s)).2.queued = s.queued + vids.length ∧
      (enqueueRest env tname vids (db, s)).2.apiCallsUsed = s.apiCallsUsed ∧
      (enqueueRest env tname vids (db, s)).1.movies = db.movies ∧
      ∃ new, (enqueueRest env tname vids (db, s)).1.queue = db.queue ++ new ∧
        new.length = vids.length ∧ ∀ t ∈ new, t.status = "pending" := by
  intro vids
  induction vids with
  | nil =>
      intro db s
      exact ⟨rfl, rfl, rfl, [], by simp [enqueueRest], rfl, by simp⟩
  | cons v rest ih =>
      intro db s
      have hstep : enqueueRest env tname (v :: rest) (db, s) =
          enqueueRest env tname rest
            ({ db with
                queue := db.queue ++
                  [{ id := db.nextQueueId, table_name := tname, row_id := v.id,
                     facebook_video_id := v.videoId.getD "", old_url := v.videoUrl,
                     video_title := v.title, status := "pending",
                     error_message := none, created_at := db.nextQueueId,
                     processed_at := none }],
                nextQueueId := db.nextQueueId + 1 },
             { s with queued := s.queued + 1 }) := by
        simp [enqueueRest, addToQueue, hEnq tname v.id]
      rw [hstep]
      obtain ⟨hq, hapi, hmov, new, hnew, hlen, hpend⟩ := ih _ _
      refine ⟨by rw [hq]; simp; omega, by rw [hapi], by rw [hmov],
        ⟨{ id := db.nextQueueId, table_name := tname, row_id := v.id,
           facebook_video_id := v.videoId.getD "", old_url := v.videoUrl,
           video_title := v.title, status := "pending", error_message := none,
           created_at := db.nextQueueId, processed_at := none } :: new,
         by rw [hnew]; simp, by simp [hlen], ?_⟩⟩
      intro t ht
      rcases List.mem_cons.mp ht with h | h
      · rw [h]
      · exact hpend t h

/-- Budget behaviour of one table's sweep when every listed record probes
invalid: the API counter climbs by one per record up to the cap, and every
record past the cap becomes one new `pending` queue row counted by the
queued counter. -/
theorem sweepTable_all_invalid (env : Env) (tname : String)
    (hEnq : ∀ t r, env.enqueueOk t r = true) :
    ∀ (vids : List TrackRecord) (db : Db) (s : Stats),
      (∀ v ∈ vids, (isUrlValid env.net v.videoUrl).1 = false) →
      s.apiCallsUsed ≤ MAX_API_CALLS →
      (sweepTable env tname vids (db, s)).2.apiCallsUsed =
        min MAX_API_CALLS (s.apiCallsUsed + vids.length) ∧
      (sweepTable env tname vids (db, s)).2.queued =
        s.queued + (s.apiCallsUsed + vids.length - MAX_API_CALLS) ∧
      (tname ≠ "movies" →
        (sweepTable env tname vids (db, s)).1.movies = db.movies) ∧
      ∃ new, (sweepTable env tname vids (db, s)).1.queue = db.queue ++ new ∧
        new.length = s.apiCallsUsed + vids.length - MAX_API_CALLS ∧
        ∀ t ∈ new, t.status = "pending" := by
  intro vids
  induction vids with
  | nil =>
      intro db s _ hA
      refine ⟨by simp [sweepTable]; omega, by simp [sweepTable]; omega,
        fun _ => rfl, [], by simp [sweepTable], by simp; omega, by simp⟩
  | cons v rest ih =>
      intro db s hInv hA
      by_cases hB : s.apiCallsUsed ≥ MAX_API_CALLS
      · have hsw : sweepTable env tname (v :: rest) (db, s) =
            enqueueRest env tname (v :: rest) (db, s) := by
          simp [sweepTable, hB]
        obtain ⟨hq, hapi, hmov, new, hnew, hlen, hpend⟩ :=
          enqueueRest_spec env tname hEnq (v :: rest) db s
        rw [hsw]
        have hAe : s.apiCallsUsed = MAX_API_CALLS := Nat.le_antisymm hA hB
        exact ⟨by rw [hapi]; omega, by rw [hq]; omega, fun _ => hmov,
          new, hnew, by rw [hlen]; omega, hpend⟩
      · have hBlt : s.apiCallsUsed < MAX_API_CALLS := Nat.lt_of_not_le hB
        have hsw : sweepTable env tname (v :: rest) (db, s) =
            sweepTable env tname rest (processFreshVideo env tname v (db, s)) := by
          simp [sweepTable, hB]
        obtain ⟨hapi1, hq1, hqueue1, hmov1⟩ :=
          processFreshVideo_effects env tname v db s (hInv v (by simp))
        have hih := ih (processFreshVideo env tname v (db, s)).1
          (processFreshVideo env tname v (db, s)).2
          (fun w hw => hInv w (by simp [hw]))
          (by rw [hapi1]; omega)
        rw [Prod.mk.eta] at hih
        obtain ⟨ihapi, ihq, ihmov, new, ihnew, ihlen, ihpend⟩ := hih
        rw [hsw]
        refine ⟨?_, ?_, ?_, new, ?_, ?_, ihpend⟩
        · rw [ihapi, hapi1]
          simp only [List.length_cons]
          omega
        · rw [ihq, hq1, hapi1]
          simp only [List.length_cons]
          omega
        · intro hm
          rw [ihmov hm, hmov1 hm]
        · rw [ihnew, hqueue1]
        · rw [ihlen, hapi1]
          simp only [List.length_cons]
          omega

/-- One table's sweep over records that all probe valid, with budget to
spare, only counts them as checked and already valid. -/
theorem sweepTable_all_valid (env : Env) (tname : String) :
    ∀ (vids : List TrackRecord) (db : Db) (s : Stats),
      (∀ v ∈ vids, (isUrlValid env.net v.videoUrl).1 = true) →
      s.apiCallsUsed < MAX_API_CALLS →
      sweepTable env tname vids (db, s) =
        (db, { s with totalChecked := s.totalChecked + vids.length,
                      alreadyValid := s.alreadyValid + vids.length }) := by
  intro vids
  induction vids with
  | nil =>
      intro db s _ _
      simp [sweepTable]
  | cons v rest ih =>
      intro db s hVal hA
      have hsw : sweepTable env tname (v :: rest) (db, s) =
          sweepTable env tname rest (processFreshVideo env tname v (db, s)) := by
        simp only [sweepTable]
        rw [if_neg (by omega)]
      rw [hsw, processFreshVideo_valid env tname v db s (hVal v (by simp)),
        ih _ _ (fun w hw => hVal w (by simp [hw])) (by simp; omega)]
      cases s
      simp only [List.length_cons, Prod.mk.injEq, Stats.mk.injEq, and_true,
        true_and, eq_self_iff_true]
      omega

/-- C1: every invocation of `getFacebookVideoUrl` increments the shared
counter `stats.apiCallsUsed` by exactly one, on success, classified
provider failure, and network failure alike. -/
theorem getFacebookVideoUrl_increments_budget_once (o : FbOutcome) (s : Stats) :
    ((getFacebookVideoUrl o s).2).apiCallsUsed = s.apiCallsUsed + 1 := by
  rw [getFacebookVideoUrl_stats]

/-- C9: the single-item diagnostic `testFacebookVideo` is exactly one call
to `getFacebookVideoUrl` on the module-global `stats` (it reads or writes
no database state, which is why it takes no `Db`), so each diagnostic call
consumes one unit of whatever run budget is currently in use. -/
theorem testFacebookVideo_consumes_one_budget_unit (o : FbOutcome) (s : Stats) :
    testFacebookVideo o s = getFacebookVideoUrl o s ∧
    ((testFacebookVideo o s).2).apiCallsUsed = s.apiCallsUsed + 1 := by
  refine ⟨rfl, ?_⟩
  show ((getFacebookVideoUrl o s).2).apiCallsUsed = s.apiCallsUsed + 1
  rw [getFacebookVideoUrl_stats]

/-- C6: a `null`, empty, or sentinel-`"NULL"` URL is reported invalid by
`isUrlValid` with zero network requests issued, whatever the network would
have answered. -/
theorem isUrlValid_trivial_urls_no_network (net : String → Bool) :
    isUrlValid net none = (false, 0) ∧
    isUrlValid net (some "") = (false, 0) ∧
    isUrlValid net (some "NULL") = (false, 0) := by
  refine ⟨rfl, ?_, ?_⟩ <;> simp [isUrlValid]

/-- C5 counterexample: when the Graph API answers successfully but the
response carries no `source` field, `getFacebookVideoUrl` returns the
failure kind `"no_source"`, which is none of the five kinds the claim
allows (under either the claim's spelling `rate_limited` or the code's
spelling `rate_limit`). -/
theorem resolver_returns_no_source_kind :
    (getFacebookVideoUrl (FbOutcome.ok none) initStats).1 =
      FbResult.failure "no_source" "No source URL found" ∧
    ¬("no_source" = "not_found" ∨ "no_source" = "permission_denied" ∨
      "no_source" = "rate_limited" ∨ "no_source" = "rate_limit" ∨
      "no_source" = "api_error" ∨ "no_source" = "network_error") := by
  exact ⟨rfl, by decide⟩

/-- C5 (amended): on failure the resolver returns exactly one of the kinds
`not_found`, `permission_denied`, `rate_limit`, `api_error`,
`network_error`, `no_source`; the first four classify structured provider
errors in that priority order, by provider error code first with a
case-insensitive substring fallback on the message; `network_error` covers
exactly the transport failures without a structured response; `no_source`
covers exactly a successful provider response lacking a source URL. -/
theorem resolver_failure_taxonomy (o : FbOutcome) (s : Stats) (k m : String)
    (h : (getFacebookVideoUrl o s).1 = FbResult.failure k m) :
    (k = "not_found" ∨ k = "permission_denied" ∨ k = "rate_limit" ∨
     k = "api_error" ∨ k = "network_error" ∨ k = "no_source") ∧
    (∀ msg, o = FbOutcome.netErr msg → k = "network_error") ∧
    (∀ source, o = FbOutcome.ok source → k = "no_source") ∧
    (∀ code message, o = FbOutcome.apiErr code message →
      ((code = some 100 ∨ strIncludes (strToLower (message.getD "")) "does not exist") →
        k = "not_found") ∧
      (¬(code = some 100 ∨ strIncludes (strToLower (message.getD "")) "does not exist") →
        (code = some 200 ∨ code = some 10 ∨
          strIncludes (strToLower (message.getD "")) "permission") →
        k = "permission_denied") ∧
      (¬(code = some 100 ∨ strIncludes (strToLower (message.getD "")) "does not exist") →
        ¬(code = some 200 ∨ code = some 10 ∨
          strIncludes (strToLower (message.getD "")) "permission") →
        (code = some 4 ∨ code = some 17 ∨
          strIncludes (strToLower (message.getD "")) "rate limit") →
        k = "rate_limit") ∧
      (¬(code = some 100 ∨ strIncludes (strToLower (message.getD "")) "does not exist") →
        ¬(code = some 200 ∨ code = some 10 ∨
          strIncludes (strToLower (message.getD "")) "permission") →
        ¬(code = some 4 ∨ code = some 17 ∨
          strIncludes (strToLower (message.getD "")) "rate limit") →
        k = "api_error")) := by
  rcases o with source | ⟨code, message⟩ | msg
  · rcases source with _ | url
    · simp only [getFacebookVideoUrl, FbResult.failure.injEq] at h
      refine ⟨by simp [h.1], by simp, by simp [h.1], by simp⟩
    · simp only [getFacebookVideoUrl] at h
      exact absurd h (by simp)
  · simp only [getFacebookVideoUrl] at h
    refine ⟨?_, by simp, by simp, ?_⟩
    · split at h
      · simp only [FbResult.failure.injEq] at h
        simp [h.1]
      · split at h
        · simp only [FbResult.failure.injEq] at h
          simp [h.1]
        · split at h
          · simp only [FbResult.failure.injEq] at h
            simp [h.1]
          · simp only [FbResult.failure.injEq] at h
            simp [h.1]
    · intro code' message' he
      injection he with h1 h2
      subst h1; subst h2
      refine ⟨?_, ?_, ?_, ?_⟩
      · intro hc
        rw [if_pos hc] at h
        exact (FbResult.failure.injEq _ _ _ _).mp h |>.1.symm
      · intro hc1 hc2
        rw [if_neg hc1, if_pos hc2] at h
        exact (FbResult.failure.injEq _ _ _ _).mp h |>.1.symm
      · intro hc1 hc2 hc3
        rw [if_neg hc1, if_neg hc2, if_pos hc3] at h
        exact (FbResult.failure.injEq _ _ _ _).mp h |>.1.symm
      · intro hc1 hc2 hc3
        rw [if_neg hc1, if_neg hc2, if_neg hc3] at h
        exact (FbResult.failure.injEq _ _ _ _).mp h |>.1.symm
  · simp only [getFacebookVideoUrl, FbResult.failure.injEq] at h
    refine ⟨by simp [h.1], by simp [h.1], by simp, by simp⟩

/-- Witness for the amended C5 at a concrete structured provider error:
code 4 with no message classifies as `rate_limit`, one of the six kinds. -/
theorem resolver_failure_taxonomy_witness :
    ("rate_limit" = "not_found" ∨ "rate_limit" = "permission_denied" ∨
     "rate_limit" = "rate_limit" ∨ "rate_limit" = "api_error" ∨
     "rate_limit" = "network_error" ∨ "rate_limit" = "no_source") :=
  (resolver_failure_taxonomy (FbOutcome.apiErr (some 4) none) initStats
    "rate_limit" "Rate limit reached" (by decide)).1

/-- C3: for every queue state and every limit, the drain read returns at
most `limit` tasks, in ascending `created_at` order, and only `pending`
ones. -/
theorem drainQueue_bounded_sorted_pending (queue : List QueueTask) (limit : Nat) :
    (drainQueue queue limit).length ≤ limit ∧
    (drainQueue queue limit).Pairwise (fun a b => a.created_at ≤ b.created_at) ∧
    ∀ t ∈ drainQueue queue limit, t.status = "pending" := by
  refine ⟨List.length_take_le _ _, ?_, ?_⟩
  · have hs := @List.sorted_mergeSort QueueTask
      (fun a b : QueueTask => decide (a.created_at ≤ b.created_at))
      (by intro a b c h1 h2
          simp only [decide_eq_true_eq] at h1 h2 ⊢
          omega)
      (by intro a b
          simp only [Bool.or_eq_true, decide_eq_true_eq]
          exact Nat.le_total _ _)
      (queue.filter fun t => t.status == "pending")
    have hst := hs.sublist (List.take_sublist limit _)
    exact hst.imp (by intro a b h; exact of_decide_eq_true h)
  · intro t ht
    have h1 := List.take_subset _ _ ht
    have h2 := List.mem_mergeSort.mp h1
    have h3 := (List.mem_filter.mp h2).2
    simpa using h3

/-- C4 counterexample: calling `markQueueProcessed` again with the same
terminal status is not a no-op — the stored row changes because the
processed stamp is rewritten — and a call with a different terminal status
moves a `completed` task backwards to `failed`. -/
theorem markQueueProcessed_not_idempotent :
    markQueueProcessed [taskA] 1 "completed" none 10 ≠ [taskA] ∧
    (markQueueProcessed [taskA] 1 "failed" (some "boom") 10).map
      (fun t => t.status) = ["failed"] := by
  constructor
  · decide
  · decide

/-- `markQueueProcessed` rewrites exactly the matching rows. -/
theorem markQueueProcessed_eq_map (q : List QueueTask) (i : Nat) (st : String)
    (em : Option String) (n : Nat) :
    markQueueProcessed q i st em n = q.map fun t =>
      if t.id = i then
        { t with status := st, processed_at := some n, error_message := em }
      else t := rfl

/-- C4 (amended): `markQueueProcessed` writes the given status, the
call-time processed stamp and the given error message on every task whose
id matches, with no guard on the previous status; tasks with other ids are
untouched; and a repeated call is absorbed by the last write
(last-write-wins) rather than being a strict no-op. -/
theorem markQueueProcessed_unconditional_overwrite (q : List QueueTask) (i : Nat)
    (st : String) (em : Option String) (n1 n2 : Nat) :
    markQueueProcessed (markQueueProcessed q i st em n1) i st em n2 =
      markQueueProcessed q i st em n2 ∧
    (∀ t ∈ q, t.id ≠ i → t ∈ markQueueProcessed q i st em n1) ∧
    (∀ t ∈ q, t.id = i →
      { t with status := st, processed_at := some n1, error_message := em } ∈
        markQueueProcessed q i st em n1) ∧
    ∀ t ∈ markQueueProcessed q i st em n1, t.id = i →
      t.status = st ∧ t.processed_at = some n1 ∧ t.error_message = em :=
  ⟨markQueueProcessed_absorb q i st em n1 n2,
   markQueueProcessed_mem_other q i st em n1,
   markQueueProcessed_mem_match q i st em n1,
   markQueueProcessed_mem_id q i st em n1⟩

/-- C7 counterexample: in the drain phase a resolver success followed by a
failing record write stores the error message `"Database update failed"`
(capital D), not the claimed `"database update failed"`. -/
theorem queue_write_failure_message_capitalized :
    ((processQueue envWF (dbQ, initStats)).1.queue.map fun t => t.error_message) =
      [some "Database update failed"] ∧
    (some "Database update failed" : Option String) ≠
      some "database update failed" := by
  have hd : drainQueue dbQ.queue MAX_API_CALLS = [taskP] := by
    simp [drainQueue, dbQ, taskP, MAX_API_CALLS]
  have hq : processQueue envWF (dbQ, initStats) =
      processQueueItems envWF (drainQueue dbQ.queue MAX_API_CALLS)
        (dbQ, initStats) := rfl
  rw [hq, hd]
  exact ⟨by decide, by decide⟩

/-- C7 (amended): in the drain phase, when the resolver succeeds for a task
but the record write fails, the task is marked `failed` with the message
`"Database update failed"` — in particular it is not left `pending` — and
the failed counter is incremented by one. -/
theorem processQueueItem_write_failure_marks_failed (env : Env) (item : QueueTask)
    (db : Db) (s : Stats) (u : String)
    (hFb : env.fb item.facebook_video_id = FbOutcome.ok (some u))
    (hW : env.dbWriteOk item.table_name item.row_id = false) :
    (processQueueItem env item (db, s)).1.queue =
      markQueueProcessed db.queue item.id "failed"
        (some "Database update failed") env.now ∧
    (processQueueItem env item (db, s)).2.failed = s.failed + 1 ∧
    ∀ t ∈ (processQueueItem env item (db, s)).1.queue, t.id = item.id →
      t.status = "failed" ∧ t.status ≠ "pending" ∧
      t.error_message = some "Database update failed" ∧
      t.processed_at = some env.now := by
  have hrun : processQueueItem env item (db, s) =
      ({ db with queue := markQueueProcessed db.queue item.id "failed" (some "Database update failed") env.now },
       { s with apiCallsUsed := s.apiCallsUsed + 1, failed := s.failed + 1 }) := by
    simp only [processQueueItem, hFb, getFacebookVideoUrl,
      updateVideoUrl_write_fails env item.table_name item.row_id u db
        { s with apiCallsUsed := s.apiCallsUsed + 1 } hW]
  rw [hrun]
  refine ⟨rfl, rfl, ?_⟩
  intro t ht hid
  have h := markQueueProcessed_mem_id db.queue item.id "failed"
    (some "Database update failed") env.now t ht hid
  exact ⟨h.1, by rw [h.1]; decide, h.2.2, h.2.1⟩

/-- Witness for the amended C7: with the concrete failing-write
environment, processing the concrete pending task bumps the failed counter
from 0 to 1. -/
theorem processQueueItem_write_failure_witness :
    envWF.fb taskP.facebook_video_id = FbOutcome.ok (some "http://cdn/new") ∧
    envWF.dbWriteOk taskP.table_name taskP.row_id = false ∧
    (processQueueItem envWF taskP (dbQ, initStats)).2.failed = 0 + 1 := by
  refine ⟨rfl, rfl, ?_⟩
  exact (processQueueItem_write_failure_marks_failed envWF taskP dbQ initStats
    "http://cdn/new" rfl rfl).2.1

/-- C10: in the sweep phase, a resolver success followed by a failing
record write leaves the whole database untouched (the record keeps its old
URL, no queue task is created) and, apart from the per-record
checked/budget counters, only bumps the anonymous failed counter: no
failure bucket receives an entry and the queued counter is unchanged. -/
theorem processFreshVideo_write_failure_anonymous (env : Env) (tname : String)
    (v : TrackRecord) (db : Db) (s : Stats) (u : String)
    (hInv : (isUrlValid env.net v.videoUrl).1 = false)
    (hFb : env.fb (v.videoId.getD "") = FbOutcome.ok (some u))
    (hW : env.dbWriteOk tname v.id = false) :
    processFreshVideo env tname v (db, s) =
      (db, { s with totalChecked := s.totalChecked + 1,
                    apiCallsUsed := s.apiCallsUsed + 1,
                    failed := s.failed + 1 }) := by
  simp only [processFreshVideo, hInv, hFb, getFacebookVideoUrl,
    updateVideoUrl_write_fails env tname v.id u db
      { s with totalChecked := s.totalChecked + 1,
               apiCallsUsed := s.apiCallsUsed + 1 } hW]
  simp

/-- Witness for C10: on the concrete episode record with the failing-write
environment, the sweep body leaves the database exactly as it was and sets
the three touched counters to one. -/
theorem processFreshVideo_write_failure_witness :
    (isUrlValid envWF.net recB.videoUrl).1 = false ∧
    processFreshVideo envWF "episodes" recB (dbQ, initStats) =
      (dbQ, { initStats with totalChecked := 1, apiCallsUsed := 1, failed := 1 }) := by
  refine ⟨by decide, ?_⟩
  exact processFreshVideo_write_failure_anonymous envWF "episodes" recB dbQ
    initStats "http://cdn/new" (by decide) rfl rfl

/-- C2: when the sweep starts with `N = MAX_API_CALLS - apiCallsUsed`
remaining budget units and faces `M > N` eligible fresh records that all
probe invalid (each needing resolution), with queue inserts succeeding,
then exactly `N` of them are resolved (the API counter rises by `N` to the
cap) and the other `M - N` become new `pending` rows of the deferred-work
queue, with the queued counter grown by exactly that remainder; the count
spans both record kinds, the current kind's tail being enqueued and the
subsequent kind still being iterated on its own listing. -/
theorem sweep_budget_overflow (env : Env) (db : Db) (s : Stats) (M N : Nat)
    (hEnq : ∀ t r, env.enqueueOk t r = true)
    (hInvE : ∀ v ∈ db.episodes.filter eligible,
      (isUrlValid env.net v.videoUrl).1 = false)
    (hInvM : ∀ v ∈ db.movies.filter eligible,
      (isUrlValid env.net v.videoUrl).1 = false)
    (hA : s.apiCallsUsed ≤ MAX_API_CALLS)
    (hM : M = (db.episodes.filter eligible).length +
      (db.movies.filter eligible).length)
    (hN : N = MAX_API_CALLS - s.apiCallsUsed)
    (hOver : N < M) :
    (processFreshVideos env (db, s)).2.apiCallsUsed = MAX_API_CALLS ∧
    (processFreshVideos env (db, s)).2.apiCallsUsed - s.apiCallsUsed = N ∧
    (processFreshVideos env (db, s)).2.queued = s.queued + (M - N) ∧
    ∃ new, (processFreshVideos env (db, s)).1.queue = db.queue ++ new ∧
      new.length = M - N ∧ ∀ t ∈ new, t.status = "pending" := by
  obtain ⟨e_api, e_q, e_mov, n1, e_queue, e_len, e_pend⟩ :=
    sweepTable_all_invalid env "episodes" hEnq (db.episodes.filter eligible)
      db s hInvE hA
  have hmovE : (sweepTable env "episodes" (db.episodes.filter eligible)
      (db, s)).1.movies = db.movies := e_mov (by decide)
  have h2 := sweepTable_all_invalid env "movies" hEnq (db.movies.filter eligible)
    (sweepTable env "episodes" (db.episodes.filter eligible) (db, s)).1
    (sweepTable env "episodes" (db.episodes.filter eligible) (db, s)).2
    hInvM (by rw [e_api]; omega)
  rw [Prod.mk.eta] at h2
  obtain ⟨m_api, m_q, m_mov, n2, m_queue, m_len, m_pend⟩ := h2
  have hpf : processFreshVideos env (db, s) =
      sweepTable env "movies"
        ((sweepTable env "episodes" (db.episodes.filter eligible)
          (db, s)).1.movies.filter eligible)
        (sweepTable env "episodes" (db.episodes.filter eligible) (db, s)) := rfl
  rw [hmovE] at hpf
  rw [hpf]
  refine ⟨?_, ?_, ?_, n1 ++ n2, ?_, ?_, ?_⟩
  · rw [m_api, e_api]
    omega
  · rw [m_api, e_api]
    omega
  · rw [m_q, e_q, e_api]
    omega
  · rw [m_queue, e_queue, List.append_assoc]
  · rw [List.length_append, m_len, e_len, e_api]
    omega
  · intro t ht
    rcases List.mem_append.mp ht with h | h
    · exact e_pend t h
    · exact m_pend t h

/-- Witness for C2: with 189 of 190 budget units already spent and two
eligible, invalid episodes (`M = 2 > N = 1`), the sweep ends at the cap
with exactly one record queued. -/
theorem sweep_budget_overflow_witness :
    stats189.apiCallsUsed ≤ MAX_API_CALLS ∧
    (processFreshVideos envWF (dbTwo, stats189)).2.apiCallsUsed = MAX_API_CALLS ∧
    (processFreshVideos envWF (dbTwo, stats189)).2.queued =
      stats189.queued + (2 - 1) := by
  have h := sweep_budget_overflow envWF dbTwo stats189 2 1
    (fun t r => rfl) (by decide) (by decide) (by decide) (by decide)
    (by decide) (by decide)
  exact ⟨by decide, h.1, h.2.2.1⟩

/-- C8: the closing status line of the run report follows the precedence
all-updated > all-still-valid > queued-note > nothing; and a run that
starts with no pending queue tasks and whose eligible fresh records all
probe valid ends with zero updated, failed and queued counters and the
"No updates needed" closing line. -/
theorem report_closing_line_precedence (env : Env) (db : Db)
    (hPending : db.queue.filter (fun t => t.status == "pending") = [])
    (hValE : ∀ v ∈ db.episodes.filter eligible,
      (isUrlValid env.net v.videoUrl).1 = true)
    (hValM : ∀ v ∈ db.movies.filter eligible,
      (isUrlValid env.net v.videoUrl).1 = true) :
    (processUrlUpdates env db).2.updated = 0 ∧
    (processUrlUpdates env db).2.failed = 0 ∧
    (processUrlUpdates env db).2.queued = 0 ∧
    generateReportClosing (processUrlUpdates env db).2 =
      "✅ <b>All URLs are still valid. No updates needed.</b>" ∧
    (∀ s' : Stats, s'.queued = 0 → s'.failed = 0 → 0 < s'.updated →
      generateReportClosing s' = "✅ <b>All expired URLs updated successfully!</b>") ∧
    (∀ s' : Stats, s'.queued = 0 → ¬(s'.failed = 0 ∧ 0 < s'.updated) →
      s'.totalChecked = s'.alreadyValid →
      generateReportClosing s' = "✅ <b>All URLs are still valid. No updates needed.</b>") ∧
    (∀ s' : Stats, 0 < s'.queued →
      generateReportClosing s' =
        "💡 <b>Note:</b> " ++ toString s'.queued ++ " items queued for next 24-hour run.") ∧
    (∀ s' : Stats, s'.queued = 0 → ¬(s'.failed = 0 ∧ 0 < s'.updated) →
      s'.totalChecked ≠ s'.alreadyValid → generateReportClosing s' = "") := by
  have hdrain : drainQueue db.queue MAX_API_CALLS = [] := by
    unfold drainQueue
    rw [hPending]
    simp
  have hq : processQueue env (db, initStats) = (db, initStats) := by
    show processQueueItems env (drainQueue db.queue MAX_API_CALLS)
      (db, initStats) = _
    rw [hdrain]
    rfl
  have hrun : processUrlUpdates env db = processFreshVideos env (db, initStats) := by
    simp only [processUrlUpdates, hq]
    split
    · rfl
    · next h => exact absurd (by decide) h
  have hsw1 := sweepTable_all_valid env "episodes" (db.episodes.filter eligible)
    db initStats hValE (by decide)
  have hpf : processFreshVideos env (db, initStats) =
      sweepTable env "movies"
        ((sweepTable env "episodes" (db.episodes.filter eligible)
          (db, initStats)).1.movies.filter eligible)
        (sweepTable env "episodes" (db.episodes.filter eligible)
          (db, initStats)) := rfl
  rw [hsw1] at hpf
  have hsw2 := sweepTable_all_valid env "movies" (db.movies.filter eligible) db
    { initStats with
        totalChecked := initStats.totalChecked + (db.episodes.filter eligible).length,
        alreadyValid := initStats.alreadyValid + (db.episodes.filter eligible).length }
    hValM (by simp [initStats]; decide)
  rw [hsw2] at hpf
  rw [hrun, hpf]
  refine ⟨rfl, rfl, rfl, by simp [generateReportClosing, initStats], ?_, ?_, ?_, ?_⟩
  · intro s' h1 h2 h3
    simp [generateReportClosing, h1, h2, h3]
  · intro s' h1 h2 h3
    unfold generateReportClosing
    rw [if_neg (by tauto), if_pos (by exact ⟨h1, h3⟩)]
  · intro s' h1
    unfold generateReportClosing
    rw [if_neg (by omega), if_neg (by omega), if_pos h1]
  · intro s' h1 h2 h3
    unfold generateReportClosing
    rw [if_neg (by tauto), if_neg (by tauto), if_neg (by omega)]

/-- Witness for C8: on the concrete all-valid environment and a database
with no pending tasks, the run reports the "No updates needed" line with
all update counters zero. -/
theorem report_closing_line_witness :
    (processUrlUpdates envOK dbTwo).2.updated = 0 ∧
    (processUrlUpdates envOK dbTwo).2.queued = 0 ∧
    generateReportClosing (processUrlUpdates envOK dbTwo).2 =
      "✅ <b>All URLs are still valid. No updates needed.</b>" := by
  have h := report_closing_line_precedence envOK dbTwo (by decide) (by decide)
    (by decide)
  exact ⟨h.1, h.2.2.1, h.2.2.2.1⟩

end CdnUpdater
